import Mathlib

/-!
Shallow embedding of `src/tools/svg_to_png_playwright.py` (class
`SvgToPngConverter` and `main`), the batch SVG-to-PNG rasterizer.

Strings are modelled as `List Char` (Lean `String.data`), file-system paths
as lists of path components, and Python floats as exact rationals `ℚ`
(every numeric value the claims touch is a small decimal, where binary
floating point is exact).  External effects (file reads, the Playwright
browser calls) are modelled by an oracle record giving each call's outcome.
-/

namespace SvgPng

/-- Decidable equality for `Except`, used to evaluate outcomes on concrete
documents. -/
instance {ε α : Type} [DecidableEq ε] [DecidableEq α] :
    DecidableEq (Except ε α) := fun x y =>
  match x, y with
  | .ok a, .ok b =>
      if h : a = b then isTrue (by rw [h])
      else isFalse (fun hh => by cases hh; exact h rfl)
  | .ok _, .error _ => isFalse (fun hh => by cases hh)
  | .error _, .ok _ => isFalse (fun hh => by cases hh)
  | .error a, .error b =>
      if h : a = b then isTrue (by rw [h])
      else isFalse (fun hh => by cases hh; exact h rfl)

/-- Characters Python `str.split()` (no argument) treats as whitespace:
space, tab, newline, carriage return, vertical tab, form feed. -/
def isSpaceChar (c : Char) : Bool :=
  c = ' ' || c = Char.ofNat 9 || c = Char.ofNat 10 || c = Char.ofNat 13 ||
  c = Char.ofNat 11 || c = Char.ofNat 12

/-- ASCII decimal digit test. -/
def isDigitChar (c : Char) : Bool :=
  48 ≤ c.toNat && c.toNat ≤ 57

/-- The double-quote character `"` (codepoint 34). -/
def dquote : Char := Char.ofNat 34

/-- The single-quote character (codepoint 39). -/
def squote : Char := Char.ofNat 39

/-- A character matched by the regex character class of quotes used in
`re.search(r'viewBox=["\x27]([^"\x27]+)["\x27]', ...)`. -/
def isQuoteChar (c : Char) : Bool :=
  c = dquote || c = squote

/-- Boolean list-prefix test (`l` begins with `pre`). -/
def listPre {α : Type} [DecidableEq α] : List α → List α → Bool
  | [], _ => true
  | _ :: _, [] => false
  | a :: as, b :: bs => a = b && listPre as bs

/-- Boolean list-suffix test (`l` ends with `sfx`). -/
def endsList {α : Type} [DecidableEq α] (sfx l : List α) : Bool :=
  listPre sfx.reverse l.reverse

/-- Numeric value of a list of ASCII digits, most significant first. -/
def digitsVal (ds : List Char) : ℕ :=
  ds.foldl (fun n c => 10 * n + (c.toNat - 48)) 0

/-- Drop leading and trailing whitespace, as Python `float(str)` does
before parsing. -/
def trimWs (s : List Char) : List Char :=
  ((s.dropWhile isSpaceChar).reverse.dropWhile isSpaceChar).reverse

/-- Read an optional sign, returning the sign as `1` or `-1` and the rest. -/
def readSign : List Char → ℤ × List Char
  | c :: rest =>
      if c = '+' then (1, rest)
      else if c = '-' then (-1, rest)
      else (1, c :: rest)
  | [] => (1, [])

/-- Split a digit run off the front of a string. -/
def takeDigits (s : List Char) : List Char × List Char :=
  (s.takeWhile isDigitChar, s.dropWhile isDigitChar)

/-- Parse the optional exponent part `([eE][+-]?digits)?`; returns the
exponent (0 when absent) or `none` when an exponent marker is present but
malformed or followed by trailing garbage. -/
def parseExp : List Char → Option ℤ
  | [] => some 0
  | c :: rest =>
      if c = 'e' || c = 'E' then
        let (sgn, r1) := readSign rest
        let (ds, r2) := takeDigits r1
        if ds = [] then none
        else if r2 = [] then some (sgn * (digitsVal ds : ℤ))
        else none
      else none

/-- Model of Python `float(token)` on the decimal grammar
`ws [+-] ( digits [. digits*] | . digits ) ([eE][+-]digits)? ws`, with the
value taken exactly in `ℚ`.  The exotic inputs Python additionally accepts
(`inf`, `nan`, underscore separators) are not modelled — no claim involves
them — and binary rounding is not modelled (all claimed values are exact). -/
def parseFloat (s : List Char) : Option ℚ :=
  let t := trimWs s
  if t = [] then none
  else
    let (sgn, r0) := readSign t
    let (intDs, r1) := takeDigits r0
    let (fracDs, r2) :=
      match r1 with
      | c :: rest => if c = '.' then takeDigits rest else ([], r1)
      | [] => ([], [])
    if intDs = [] ∧ fracDs = [] then none
    else
      match parseExp r2 with
      | none => none
      | some e =>
          let mantissa : ℤ := sgn * (digitsVal (intDs ++ fracDs) : ℤ)
          let k : ℤ := e - (fracDs.length : ℤ)
          if 0 ≤ k then ((mantissa * (10 ^ k.toNat : ℕ) : ℤ) : ℚ)
          else (mantissa : ℚ) / ((10 ^ (-k).toNat : ℕ) : ℚ)

/-! ### The viewBox regex

`re.search(r'viewBox=["\x27]([^"\x27]+)["\x27]', svg_content)`: scan the
text left to right and return the capture group of the leftmost match.
At a given position the pattern matches iff the text continues with the
literal `viewBox=`, then a quote character, then a nonempty maximal run of
non-quote characters, then one more character (necessarily a quote, which
closes the match; the closing quote need not equal the opening one).
Greedy backtracking cannot produce any other match at that position, since
every shorter capture would be followed by a non-quote character. -/

/-- Longest quote-free prefix, the greedy `[^"\x27]+` run. -/
def takeNonQuote (s : List Char) : List Char :=
  s.takeWhile (fun c => !isQuoteChar c)

/-- Attempt to match the viewBox pattern anchored at the head of `s`,
returning the capture group (the attribute value). -/
def matchViewBoxAt (s : List Char) : Option (List Char) :=
  if listPre "viewBox=".data s then
    match s.drop 8 with
    | q :: rest =>
        if isQuoteChar q then
          let run := takeNonQuote rest
          match run, rest.drop run.length with
          | _ :: _, c :: _ => if isQuoteChar c then some run else none
          | _, _ => none
        else none
    | [] => none
  else none

/-- Leftmost match of the viewBox pattern anywhere in the text, as
`re.search` computes it. -/
def findViewBox : List Char → Option (List Char)
  | [] => none
  | c :: rest =>
      match matchViewBoxAt (c :: rest) with
      | some v => some v
      | none => findViewBox rest

/-- Helper for `splitWs`: current in-progress word is `acc` (reversed). -/
def splitWsAux : List Char → List Char → List (List Char)
  | [], acc => if acc = [] then [] else [acc.reverse]
  | c :: cs, acc =>
      if isSpaceChar c then
        if acc = [] then splitWsAux cs []
        else acc.reverse :: splitWsAux cs []
      else splitWsAux cs (c :: acc)

/-- Python `str.split()` with no separator: split on whitespace runs,
discarding empty pieces. -/
def splitWs (s : List Char) : List (List Char) :=
  splitWsAux s []

/-- Dimensions computed from the text of a matched viewBox value, per the
body of `convert_file`: split on whitespace; with exactly four tokens,
`float(tokens[2])` and `float(tokens[3])` give width and height (a failed
conversion raises `ValueError`, modelled as `.error`); with any other
token count the fixed default 750×1000 is used. -/
def dimsOfValue (v : List Char) : Except String (ℚ × ℚ) :=
  match splitWs v with
  | [_, _, c, d] =>
      match parseFloat c with
      | none => .error "could not convert string to float"
      | some w =>
          match parseFloat d with
          | none => .error "could not convert string to float"
          | some h => .ok (w, h)
  | _ => .ok (750, 1000)

/-- Dimension inference of `convert_file` (lines 130–145): regex-search the
whole document for a viewBox; absent → default 750×1000; present → defer to
`dimsOfValue`. -/
def inferDimensions (content : List Char) : Except String (ℚ × ℚ) :=
  match findViewBox content with
  | none => .ok (750, 1000)
  | some v => dimsOfValue v

/-! ### Rendering plan and converter state -/

/-- Truncating (toward zero) division of an integer by a positive natural,
the rounding Python `int()` applies to a float. -/
def truncDiv (n : ℤ) (d : ℕ) : ℤ :=
  if 0 ≤ n then ((n.toNat / d : ℕ) : ℤ)
  else -(((-n).toNat / d : ℕ) : ℤ)

/-- Python `int()` applied to a (here exact) float: truncation toward zero. -/
def pyInt (q : ℚ) : ℤ :=
  truncDiv q.num q.den

/-- Python `int(a * b)` for exact values: truncation toward zero of the
product, computed on the unreduced fraction
`(a.num * b.num) / (a.den * b.den)`.  Truncation depends only on the
rational value, not on the representative, so this is `pyInt (a * b)`;
the unreduced form is used so concrete runs evaluate by kernel reduction. -/
def pyIntMul (a b : ℚ) : ℤ :=
  truncDiv (a.num * b.num) (a.den * b.den)

/-- The `scale` argument of Playwright's `screenshot`: the code always
passes the literal string `css` (line 200), never the numeric `--scale`. -/
inductive ShotScale : Type
  | css
  | device
deriving DecidableEq

/-- Everything `convert_file` hands to the rendering engine for one job:
the CSS pixel size forced onto the `svg` element by the generated style
block, the viewport size `int(width*scale) × int(height*scale)`, and the
screenshot scale mode. -/
structure RenderPlan : Type where
  cssWidth : ℚ
  cssHeight : ℚ
  viewportWidth : ℤ
  viewportHeight : ℤ
  shot : ShotScale
deriving DecidableEq

/-- Pixel size of the raster produced by the external engine for a plan.
Model of the engine's element-screenshot contract (Playwright, outside this
repository): in `css` scale mode the capture has one pixel per CSS pixel of
the element's box — the code's own comment chooses `css` precisely "to avoid
device-pixel-ratio magnification" — so the image size equals the element's
CSS size, which the generated style block pins to `(cssWidth, cssHeight)`. -/
def outputDims (p : RenderPlan) : ℚ × ℚ :=
  match p.shot with
  | .css => (p.cssWidth, p.cssHeight)
  | .device => (p.cssWidth, p.cssHeight)

/-- Mutable fields of `SvgToPngConverter` (construction parameters and the
run counters; the browser handles live in the event trace instead). -/
structure ConverterState : Type where
  scale : ℚ
  recursive : Bool
  success_count : ℕ
  fail_count : ℕ
  failed_files : List (String × String)
deriving DecidableEq

/-- Converter as built in `main`: counters zero, no failures recorded. -/
def initState (scale : ℚ) (recursive : Bool) : ConverterState :=
  ⟨scale, recursive, 0, 0, []⟩

/-- Oracle for the side-effecting steps of one `convert_file` call, in
program order: `mkdir -p` of the destination's parent, reading the source
file (yielding its text), `page.set_content`, `page.wait_for_selector`
(timeout 5000 ms), `page.set_viewport_size`, and the element screenshot
(including `query_selector` and the PNG write).  Each entry is the step's
outcome; `.error m` is an exception with message `m`. -/
structure JobEnv : Type where
  mkdirR : Except String Unit
  readR : Except String (List Char)
  setContentR : Except String Unit
  waitR : Except String Unit
  setViewportR : Except String Unit
  screenshotR : Except String Unit

/-- Environment in which every external step succeeds and the source file
holds `content`. -/
def okEnv (content : List Char) : JobEnv :=
  ⟨.ok (), .ok content, .ok (), .ok (), .ok (), .ok ()⟩

/-- Body of the `try` block of `convert_file` (lines 122–201): make the
output directory, read the SVG, infer dimensions (a `ValueError` from
`float()` escapes here), hand the HTML to the page, wait for the `svg`
selector, set the viewport to `int(width*scale) × int(height*scale)`, and
screenshot the element with `scale='css'`.  Returns the render plan that
reached the engine, or the first exception. -/
def attemptConvert (scale : ℚ) (env : JobEnv) : Except String RenderPlan := do
  env.mkdirR
  let content ← env.readR
  let (w, h) ← inferDimensions content
  env.setContentR
  env.waitR
  let plan : RenderPlan :=
    ⟨w, h, pyIntMul w scale, pyIntMul h scale, .css⟩
  env.setViewportR
  env.screenshotR
  pure plan

/-- Value and state produced by one `convert_file` call: the returned
`(success, error_message)` pair, the render plan when the screenshot was
issued, and the updated converter. -/
structure ConvertOutcome : Type where
  success : Bool
  errMsg : String
  plan : Option RenderPlan
  state : ConverterState

/-- `convert_file` (lines 111–210): run the try-block; on success increment
`success_count` and return `(True, "")`; on any exception increment
`fail_count`, append `(svg_path.name, str(e))` to `failed_files`, and
return `(False, str(e))`.  The exception never escapes the call. -/
def convert_file (st : ConverterState) (env : JobEnv) (name : String) :
    ConvertOutcome :=
  match attemptConvert st.scale env with
  | .ok plan =>
      ⟨true, "", some plan,
        { st with success_count := st.success_count + 1 }⟩
  | .error msg =>
      ⟨false, msg, none,
        { st with fail_count := st.fail_count + 1,
                  failed_files := st.failed_files ++ [(name, msg)] }⟩

/-- A bare sequence of `convert_file` calls threaded through the state,
used to speak about the counters after any number of completed calls. -/
def runJobs (st : ConverterState) (jobs : List (String × JobEnv)) :
    ConverterState :=
  jobs.foldl (fun s j => (convert_file s j.2 j.1).state) st

/-! ### Paths and the file system

A path is its list of components (`pathlib.PurePath.parts`, the drive
anchor abstracted away).  The file system is the finite set of regular
files and of directories present during the run; the code only ever asks
`is_file`, `is_dir`, `exists`, and globs, so this is the whole interface. -/

/-- A file-system path as its list of components. -/
abbrev FPath : Type := List String

/-- Last component of a path, `PurePath.name` (empty for the root). -/
def lastName (p : FPath) : String :=
  (p.getLast?).getD ""

/-- ASCII lowering of one character, for `str.lower()` on suffixes. -/
def asciiLower (c : Char) : Char :=
  if 65 ≤ c.toNat ∧ c.toNat ≤ 90 then Char.ofNat (c.toNat + 32) else c

/-- Python `str.lower()` (ASCII fragment; suffixes here are ASCII). -/
def lowerStr (s : List Char) : List Char :=
  s.map asciiLower

/-- Index of the last dot of a name, scanning from the right. -/
def lastDotIdx (name : List Char) : Option ℕ :=
  match name.reverse.findIdx? (fun c => c = '.') with
  | none => none
  | some k => some (name.length - 1 - k)

/-- `PurePath.suffix`: the part of the name from its last dot, provided
that dot is neither the leading character (a dotfile has no suffix) nor
the final character; otherwise the empty suffix. -/
def pySuffix (name : List Char) : List Char :=
  match lastDotIdx name with
  | none => []
  | some i => if 0 < i ∧ i < name.length - 1 then name.drop i else []

/-- `PurePath.with_suffix(sfx)` applied to a name: drop the old suffix (if
any) and append the new one. -/
def pyWithSuffix (name sfx : List Char) : List Char :=
  let old := pySuffix name
  if old = [] then name ++ sfx else name.take (name.length - old.length) ++ sfx

/-- A file name with its suffix replaced by `.png`, as
`with_suffix('.png')` computes it. -/
def nameWithPng (n : String) : String :=
  ⟨pyWithSuffix n.data ".png".data⟩

/-- A path whose final component gets `with_suffix('.png')`. -/
def pathWithPng (p : FPath) : FPath :=
  p.dropLast ++ [nameWithPng (lastName p)]

/-- Does the final component match the glob pattern `*.svg`?  `fnmatch`
semantics: the star may match the empty string and dotfiles are not
special-cased, so this is exactly "the name ends in `.svg`". -/
def svgNameB (p : FPath) : Bool :=
  endsList ".svg".data (lastName p).data

/-- Is `p` strictly below directory `dir` (any depth ≥ 1)? -/
def underDir (dir p : FPath) : Bool :=
  listPre dir p && decide (dir.length < p.length)

/-- Is `p` a direct child of `dir`? -/
def directChild (dir p : FPath) : Bool :=
  listPre dir p && decide (p.length = dir.length + 1)

/-- The file system visible to a run: the regular files and the
directories, each as a path. -/
structure FS : Type where
  files : List FPath
  dirs : List FPath

/-- `Path.is_file()`. -/
def isFileB (fs : FS) (p : FPath) : Bool :=
  fs.files.contains p

/-- `Path.is_dir()`. -/
def isDirB (fs : FS) (p : FPath) : Bool :=
  fs.dirs.contains p

/-- `Path.exists()` for the entry kinds in the model. -/
def existsB (fs : FS) (p : FPath) : Bool :=
  isFileB fs p || isDirB fs p

/-! ### The sorted enumeration

`sorted()` on `pathlib.Path` objects (CPython 3.11 and later) compares
the full path strings (`_str_normcase`; normcase is the identity on
POSIX).  Core `String` comparison does not evaluate by kernel reduction,
so the same order is defined here executably. -/

/-- Strict code-point lexicographic order on texts. -/
def strLtB : List Char → List Char → Bool
  | [], [] => false
  | [], _ :: _ => true
  | _ :: _, [] => false
  | a :: as, b :: bs =>
      if a.toNat < b.toNat then true
      else if b.toNat < a.toNat then false
      else strLtB as bs

/-- Textual form of a path, `str(PurePath)`: the components joined with
the `/` separator (the anchor abstracted away). -/
def joinPath : FPath → List Char
  | [] => []
  | [s] => s.data
  | s :: rest => s.data ++ '/' :: joinPath rest

/-- Non-strict order on paths as `sorted()` ranks them: `p ≤ q` iff `q`'s
full path text is not code-point-lexicographically smaller than `p`'s. -/
def pathLeB (p q : FPath) : Bool :=
  !strLtB (joinPath q) (joinPath p)

/-- The enumeration order as a relation, for the sorting lemmas. -/
def pathLe (p q : FPath) : Prop :=
  pathLeB p q = true

instance : DecidableRel pathLe := fun p q => by
  unfold pathLe; infer_instance

/-- `get_svg_files` (lines 90–109): `rglob("*.svg")` when the converter is
recursive, `glob("*.svg")` otherwise, then `sorted(...)`.  A pathlib glob
yields every directory entry whose name matches the pattern regardless of
its kind, so directories named `*.svg` are enumerated alongside regular
files. -/
def get_svg_files (fs : FS) (dir : FPath) (recursive : Bool) : List FPath :=
  List.insertionSort pathLe
    ((fs.files ++ fs.dirs).filter fun p =>
      (if recursive then underDir dir p else directChild dir p) && svgNameB p)

/-! ### Single-file mode, batch mode, and `main` -/

/-- Observable engine/conversion events of a run: `start` is `__enter__`
(Playwright start, browser launch, page creation), `stop` is `__exit__`
(page, browser and Playwright shut down), `job p` is one `convert_file`
call on source `p`. -/
inductive REvent : Type
  | start
  | stop
  | job (p : FPath)
deriving DecidableEq

/-- Destination path of one batch job (lines 283–284):
`output_dir / svg_path.relative_to(input_dir).with_suffix('.png')`. -/
def jobDest (inDir outDir p : FPath) : FPath :=
  outDir ++ pathWithPng (p.drop inDir.length)

/-- Output root used by `convert_batch` (lines 262–263): the second CLI
path when given, else `input_dir.parent / "png_output"`. -/
def outRootOf (inDir : FPath) (outOpt : Option FPath) : FPath :=
  outOpt.getD (inDir.dropLast ++ ["png_output"])

/-- `convert_single` (lines 212–243): reject a missing path or one whose
lowered suffix is not `.svg` (printing an error and returning `False`);
otherwise convert to the explicit output path or to the source with a
`.png` suffix.  Result: the returned Bool, the converter, the engine
events, and the files written. -/
def convert_single (st : ConverterState) (fs : FS) (envOf : FPath → JobEnv)
    (svg : FPath) (pngOpt : Option FPath) :
    Bool × ConverterState × List REvent × List FPath :=
  if ¬ existsB fs svg then (false, st, [], [])
  else if ¬ (lowerStr (pySuffix (lastName svg).data) = ".svg".data) then
    (false, st, [], [])
  else
    let png := pngOpt.getD (pathWithPng svg)
    let o := convert_file st (envOf svg) (lastName svg)
    (o.success, o.state, [.job svg], if o.success then [png] else [])

/-- One iteration of the batch loop (lines 281–287): convert the file to
its mirrored destination, extending the event trace and, on success, the
list of files written. -/
def batchStep (envOf : FPath → JobEnv) (inDir outDir : FPath)
    (acc : ConverterState × List REvent × List FPath) (p : FPath) :
    ConverterState × List REvent × List FPath :=
  let o := convert_file acc.1 (envOf p) (lastName p)
  (o.state, acc.2.1 ++ [REvent.job p],
   acc.2.2 ++ if o.success then [jobDest inDir outDir p] else [])

/-- `convert_batch` (lines 245–287): bail out (printing only) when the
input is missing or not a directory; else fix the output root, enumerate,
and run `convert_file` on every enumerated file in order, mirroring each
file's relative path under the output root with a `.png` suffix. -/
def convert_batch (st : ConverterState) (fs : FS) (inDir : FPath)
    (outOpt : Option FPath) (envOf : FPath → JobEnv) :
    ConverterState × List REvent × List FPath :=
  if ¬ existsB fs inDir then (st, [], [])
  else if ¬ isDirB fs inDir then (st, [], [])
  else
    (get_svg_files fs inDir st.recursive).foldl
      (batchStep envOf inDir (outRootOf inDir outOpt)) (st, [], [])

/-- Parsed CLI arguments of the tool. -/
structure Args : Type where
  input : FPath
  output : Option FPath
  scale : ℚ
  no_recursive : Bool

/-- Observable outcome of a `main` run: the process exit code, the final
converter, the engine/conversion events in order, and the files written. -/
structure MainResult : Type where
  exitCode : ℕ
  finalState : ConverterState
  events : List REvent
  outputsWritten : List FPath

/-- `main` (lines 304–380): build a fresh converter inside the
`with`-statement (engine start), dispatch on `is_file` / `is_dir`
(ignoring `convert_single`'s return value), `sys.exit(1)` when the input
path is neither — the `SystemExit` still unwinds through `__exit__` —
and otherwise fall through to a normal exit 0. -/
def mainRun (fs : FS) (a : Args) (envOf : FPath → JobEnv) : MainResult :=
  let st0 := initState a.scale (!a.no_recursive)
  if isFileB fs a.input then
    let r := convert_single st0 fs envOf a.input a.output
    ⟨0, r.2.1, .start :: r.2.2.1 ++ [.stop], r.2.2.2⟩
  else if isDirB fs a.input then
    let r := convert_batch st0 fs a.input a.output envOf
    ⟨0, r.1, .start :: r.2.1 ++ [.stop], r.2.2⟩
  else
    ⟨1, st0, [.start, .stop], []⟩

/-! ### Supporting lemmas -/

theorem listPre_iff {α : Type} [DecidableEq α] :
    ∀ pre l : List α, listPre pre l = true ↔ ∃ rest, l = pre ++ rest := by
  intro pre
  induction pre with
  | nil => intro l; simp [listPre]
  | cons a as ih =>
      intro l
      cases l with
      | nil => simp [listPre]
      | cons b bs =>
          by_cases hab : a = b
          · subst hab
            simp [listPre, ih]
          · simp [listPre, hab, Ne.symm hab]

theorem listPre_drop {α : Type} [DecidableEq α] (pre l : List α)
    (h : listPre pre l = true) : l = pre ++ l.drop pre.length := by
  obtain ⟨rest, rfl⟩ := (listPre_iff pre l).1 h
  simp

theorem strLtB_trans : ∀ a b c : List Char,
    strLtB a b = true → strLtB b c = true → strLtB a c = true := by
  intro a
  induction a with
  | nil =>
      intro b c hab hbc
      cases b with
      | nil => simp [strLtB] at hab
      | cons y ys =>
          cases c with
          | nil => simp [strLtB] at hbc
          | cons z zs => simp [strLtB]
  | cons x xs ih =>
      intro b c hab hbc
      cases b with
      | nil => simp [strLtB] at hab
      | cons y ys =>
          cases c with
          | nil => simp [strLtB] at hbc
          | cons z zs =>
              simp only [strLtB] at hab hbc ⊢
              rcases Nat.lt_trichotomy x.toNat y.toNat with h1 | h1 | h1 <;>
                rcases Nat.lt_trichotomy y.toNat z.toNat with h2 | h2 | h2
              · simp [Nat.lt_trans h1 h2]
              · simp [show x.toNat < z.toNat by omega]
              · simp [show ¬ y.toNat < z.toNat by omega,
                  show z.toNat < y.toNat by omega] at hbc
              · simp [show x.toNat < z.toNat by omega]
              · simp [show ¬ x.toNat < y.toNat by omega,
                  show ¬ y.toNat < x.toNat by omega] at hab
                simp [show ¬ y.toNat < z.toNat by omega,
                  show ¬ z.toNat < y.toNat by omega] at hbc
                simp [show ¬ x.toNat < z.toNat by omega,
                  show ¬ z.toNat < x.toNat by omega]
                exact ih ys zs hab hbc
              · simp [show ¬ y.toNat < z.toNat by omega,
                  show z.toNat < y.toNat by omega] at hbc
              · simp [show ¬ x.toNat < y.toNat by omega,
                  show y.toNat < x.toNat by omega] at hab
              · simp [show ¬ x.toNat < y.toNat by omega,
                  show y.toNat < x.toNat by omega] at hab
              · simp [show ¬ x.toNat < y.toNat by omega,
                  show y.toNat < x.toNat by omega] at hab

theorem strLtB_eq_of_not : ∀ a b : List Char,
    strLtB a b = false → strLtB b a = false → a = b := by
  intro a
  induction a with
  | nil =>
      intro b hab _
      cases b with
      | nil => rfl
      | cons y ys => simp [strLtB] at hab
  | cons x xs ih =>
      intro b hab hba
      cases b with
      | nil => simp [strLtB] at hba
      | cons y ys =>
          simp only [strLtB] at hab hba
          by_cases h1 : x.toNat < y.toNat
          · simp [h1] at hab
          · by_cases h2 : y.toNat < x.toNat
            · simp [h1, h2] at hba
            · have hxy : x = y := by
                have hn : x.toNat = y.toNat := by omega
                have := congrArg Char.ofNat hn
                rwa [Char.ofNat_toNat, Char.ofNat_toNat] at this
              subst hxy
              simp [h1] at hab hba
              rw [ih ys hab hba]

theorem strLtB_irrefl : ∀ a : List Char, strLtB a a = false := by
  intro a
  induction a with
  | nil => rfl
  | cons x xs ih => simp [strLtB, ih]

theorem pathLeB_total : ∀ p q : FPath, pathLeB p q = true ∨ pathLeB q p = true := by
  intro p q
  by_cases h : strLtB (joinPath q) (joinPath p) = true
  · right
    have hf : strLtB (joinPath p) (joinPath q) = false := by
      by_contra hc
      rw [Bool.not_eq_false] at hc
      have := strLtB_trans _ _ _ h hc
      rw [strLtB_irrefl] at this
      cases this
    simp [pathLeB, hf]
  · left
    rw [Bool.not_eq_true] at h
    simp [pathLeB, h]

theorem pathLeB_trans : ∀ p q r : FPath,
    pathLeB p q = true → pathLeB q r = true → pathLeB p r = true := by
  intro p q r h1 h2
  simp only [pathLeB, Bool.not_eq_true'] at h1 h2 ⊢
  by_contra hc
  rw [Bool.not_eq_false] at hc
  by_cases h3 : strLtB (joinPath q) (joinPath r) = true
  · have := strLtB_trans _ _ _ h3 hc
    rw [this] at h1
    cases h1
  · rw [Bool.not_eq_true] at h3
    have hqr : joinPath q = joinPath r := strLtB_eq_of_not _ _ h3 h2
    rw [← hqr] at hc
    rw [hc] at h1
    cases h1

theorem convert_file_state (st : ConverterState) (env : JobEnv) (name : String) :
    (convert_file st env name).state.success_count +
      (convert_file st env name).state.fail_count =
    st.success_count + st.fail_count + 1 := by
  unfold convert_file
  cases attemptConvert st.scale env <;> simp <;> omega

theorem convert_file_fields (st : ConverterState) (env : JobEnv) (name : String) :
    (convert_file st env name).state.scale = st.scale ∧
    (convert_file st env name).state.recursive = st.recursive := by
  unfold convert_file
  cases attemptConvert st.scale env <;> simp

theorem runJobs_counts : ∀ (jobs : List (String × JobEnv)) (st : ConverterState),
    (runJobs st jobs).success_count + (runJobs st jobs).fail_count =
    st.success_count + st.fail_count + jobs.length := by
  intro jobs
  induction jobs with
  | nil => intro st; simp [runJobs]
  | cons j js ih =>
      intro st
      have h1 := convert_file_state st j.2 j.1
      have h2 := ih (convert_file st j.2 j.1).state
      simp only [runJobs, List.foldl_cons, List.length_cons] at h2 ⊢
      omega

theorem batch_foldl_counts (envOf : FPath → JobEnv) (inDir outDir : FPath) :
    ∀ (files : List FPath) (st : ConverterState) (evs : List REvent)
      (outs : List FPath),
    (files.foldl (batchStep envOf inDir outDir) (st, evs, outs)).1.success_count +
      (files.foldl (batchStep envOf inDir outDir) (st, evs, outs)).1.fail_count =
    st.success_count + st.fail_count + files.length := by
  intro files
  induction files with
  | nil => intro st evs outs; simp
  | cons p ps ih =>
      intro st evs outs
      have h1 := convert_file_state st (envOf p) (lastName p)
      have h2 := ih (convert_file st (envOf p) (lastName p)).state
        (evs ++ [REvent.job p])
        (outs ++ if (convert_file st (envOf p) (lastName p)).success then
          [jobDest inDir outDir p] else [])
      simp only [List.foldl_cons, batchStep, List.length_cons] at h2 ⊢
      omega

theorem batch_foldl_events (envOf : FPath → JobEnv) (inDir outDir : FPath) :
    ∀ (files : List FPath) (st : ConverterState) (evs : List REvent)
      (outs : List FPath),
    (files.foldl (batchStep envOf inDir outDir) (st, evs, outs)).2.1 =
      evs ++ files.map REvent.job := by
  intro files
  induction files with
  | nil => intro st evs outs; simp
  | cons p ps ih =>
      intro st evs outs
      simp only [List.foldl_cons, batchStep, List.map_cons]
      rw [ih]
      simp

theorem svg_suffix_is_svg (n : List Char)
    (hend : endsList ".svg".data n = true) (hlen : 4 < n.length) :
    pySuffix n = ".svg".data := by
  obtain ⟨rest, hrev⟩ := (listPre_iff (".svg".data.reverse) n.reverse).1 hend
  have hrevsvg : (".svg".data.reverse : List Char) = ['g', 'v', 's', '.'] := by
    decide
  rw [hrevsvg] at hrev
  have hlen4 : n.length = rest.length + 4 := by
    have := congrArg List.length hrev
    simp at this
    omega
  have hfind : lastDotIdx n = some (n.length - 4) := by
    unfold lastDotIdx
    rw [hrev]
    have : List.findIdx? (fun c => c = '.') (['g', 'v', 's', '.'] ++ rest)
        = some 3 := by
      simp [List.findIdx?_cons]
    rw [this]
    simp
    omega
  have hdrop : n.drop (n.length - 4) = ".svg".data := by
    have hn : n = rest.reverse ++ ".svg".data := by
      have := congrArg List.reverse hrev
      simpa using this
    rw [show n.length - 4 = rest.reverse.length by simp; omega, hn,
      List.drop_left]
  unfold pySuffix
  rw [hfind]
  have h1 : 0 < n.length - 4 := by omega
  have h2 : n.length - 4 < n.length - 1 := by omega
  simp [h1, h2, hdrop]

theorem svg_suffix_swap (n : List Char)
    (hend : endsList ".svg".data n = true) (hlen : 4 < n.length) :
    pyWithSuffix n ".png".data = n.take (n.length - 4) ++ ".png".data := by
  unfold pyWithSuffix
  rw [svg_suffix_is_svg n hend hlen]
  simp

theorem mem_get_svg_files (fs : FS) (dir : FPath) (r : Bool) (p : FPath) :
    p ∈ get_svg_files fs dir r ↔
      (p ∈ fs.files ∨ p ∈ fs.dirs) ∧
      (if r then underDir dir p else directChild dir p) = true ∧
      svgNameB p = true := by
  unfold get_svg_files
  rw [(List.perm_insertionSort pathLe _).mem_iff, List.mem_filter,
    List.mem_append]
  simp [Bool.and_eq_true]

theorem underDir_iff (dir p : FPath) :
    underDir dir p = true ↔ ∃ rel, rel ≠ [] ∧ p = dir ++ rel := by
  unfold underDir
  rw [Bool.and_eq_true, listPre_iff, decide_eq_true_eq]
  constructor
  · rintro ⟨⟨rest, rfl⟩, hlt⟩
    refine ⟨rest, ?_, rfl⟩
    intro h
    subst h
    simp at hlt
  · rintro ⟨rel, hne, rfl⟩
    refine ⟨⟨rel, rfl⟩, ?_⟩
    have : 0 < rel.length := List.length_pos.2 hne
    simp
    omega

theorem directChild_iff (dir p : FPath) :
    directChild dir p = true ↔ ∃ rel, rel.length = 1 ∧ p = dir ++ rel := by
  unfold directChild
  rw [Bool.and_eq_true, listPre_iff, decide_eq_true_eq]
  constructor
  · rintro ⟨⟨rest, rfl⟩, hlen⟩
    refine ⟨rest, ?_, rfl⟩
    simp at hlen
    omega
  · rintro ⟨rel, h1, rfl⟩
    exact ⟨⟨rel, rfl⟩, by simp [h1]⟩

/-! ### The claims -/

/-- C2 counterexample: the claim's fallback-on-malformed clause fails on
the code.  `viewBox="0 0 a b"` has four tokens but non-numeric width and
height: the claim says the inference falls back to 750×1000 rather than
failing, yet the code raises `ValueError` in `float()` and the job fails.
`viewBox="x y 200 300"` also lacks four numeric tokens, yet the code
returns (200, 300) because it never parses the first two tokens. -/
theorem viewbox_malformed_counterexample :
    inferDimensions "<svg viewBox=\"0 0 a b\"></svg>".data =
      .error "could not convert string to float" ∧
    inferDimensions "<svg viewBox=\"0 0 a b\"></svg>".data ≠ .ok (750, 1000) ∧
    inferDimensions "<svg viewBox=\"x y 200 300\"></svg>".data = .ok (200, 300) ∧
    inferDimensions "<svg viewBox=\"x y 200 300\"></svg>".data ≠ .ok (750, 1000) := by
  refine ⟨by decide, by decide, by decide, by decide⟩

/-- C2 (amended): dimension inference uses tokens 3 and 4 of the first
viewBox match whenever there are exactly four whitespace-separated tokens
and both parse as floats (tokens 1 and 2 are never examined); it falls
back to width=750, height=1000 exactly when the viewBox is absent or the
token count differs from four; when there are four tokens but token 3
fails to parse, the conversion fails with an error instead of falling
back (for a failure of token 3 the fourth conjunct applies, for a failure
of token 4 alone the fifth); and a document with no viewBox at scale=1
produces 750×1000 output. -/
theorem viewbox_dimension_inference :
    (∀ content, findViewBox content = none →
      inferDimensions content = .ok (750, 1000)) ∧
    (∀ content v, findViewBox content = some v → (splitWs v).length ≠ 4 →
      inferDimensions content = .ok (750, 1000)) ∧
    (∀ content v a b c d w h, findViewBox content = some v →
      splitWs v = [a, b, c, d] → parseFloat c = some w →
      parseFloat d = some h → inferDimensions content = .ok (w, h)) ∧
    (∀ content v a b c d, findViewBox content = some v →
      splitWs v = [a, b, c, d] → parseFloat c = none →
      ∃ msg, inferDimensions content = .error msg) ∧
    (∀ content v a b c d w, findViewBox content = some v →
      splitWs v = [a, b, c, d] → parseFloat c = some w →
      parseFloat d = none →
      ∃ msg, inferDimensions content = .error msg) ∧
    (convert_file (initState 1 true)
        (okEnv "<svg width=\"750\"></svg>".data) "f.svg").plan.map outputDims
      = some (750, 1000) := by
  refine ⟨?_, ?_, ?_, ?_, ?_, by decide⟩
  · intro content h
    simp [inferDimensions, h]
  · intro content v h h2
    have hgoal : inferDimensions content = dimsOfValue v := by
      simp [inferDimensions, h]
    rw [hgoal]
    unfold dimsOfValue
    split
    · simp_all
    · rfl
  · intro content v a b c d w h hv hsplit hc hd
    have hgoal : inferDimensions content = dimsOfValue v := by
      simp [inferDimensions, hv]
    rw [hgoal]
    simp [dimsOfValue, hsplit, hc, hd]
  · intro content v a b c d hv hsplit hc
    refine ⟨"could not convert string to float", ?_⟩
    have hgoal : inferDimensions content = dimsOfValue v := by
      simp [inferDimensions, hv]
    rw [hgoal]
    simp [dimsOfValue, hsplit, hc]
  · intro content v a b c d w hv hsplit hc hd
    refine ⟨"could not convert string to float", ?_⟩
    have hgoal : inferDimensions content = dimsOfValue v := by
      simp [inferDimensions, hv]
    rw [hgoal]
    simp [dimsOfValue, hsplit, hc, hd]

/-- C3: the claim (and the tool's own `--scale` documentation) expects the
raster to measure `round(width*scale) × round(height*scale)`, i.e. 400×600
for `viewBox="0 0 200 300"` at scale 2.  The code instead pins the `svg`
element's CSS size to the unscaled 200×300, applies the scale only to the
viewport (`int(width*scale)` = 400×600), and captures the element at the
fixed `css` scale, which yields one pixel per CSS pixel: a 200×300 image,
not 400×600. -/
theorem scale_ignored_at_capture :
    attemptConvert 2 (okEnv "<svg viewBox=\"0 0 200 300\"></svg>".data) =
      .ok ⟨200, 300, 400, 600, .css⟩ ∧
    (convert_file (initState 2 true)
        (okEnv "<svg viewBox=\"0 0 200 300\"></svg>".data) "slide.svg").plan =
      some ⟨200, 300, 400, 600, .css⟩ ∧
    outputDims ⟨200, 300, 400, 600, ShotScale.css⟩ = (200, 300) ∧
    outputDims ⟨200, 300, 400, 600, ShotScale.css⟩ ≠ ((400 : ℚ), (600 : ℚ)) := by
  refine ⟨by decide, by decide, by decide, by decide⟩

/-- C10: dimension inference takes the first regex match anywhere in the
text — here the `viewBox` inside an XML comment shadows the root element's
own attribute — and splits the value on whitespace only, so the
comma-separated `0,0,200,300` is a single token and the inference silently
falls back to the 750×1000 default. -/
theorem viewbox_first_match_whitespace_split :
    findViewBox
        "<!-- viewBox=\"0 0 111 222\" --><svg viewBox=\"0 0 333 444\"></svg>".data
      = some "0 0 111 222".data ∧
    inferDimensions
        "<!-- viewBox=\"0 0 111 222\" --><svg viewBox=\"0 0 333 444\"></svg>".data
      = .ok (111, 222) ∧
    splitWs "0,0,200,300".data = ["0,0,200,300".data] ∧
    inferDimensions "<svg viewBox=\"0,0,200,300\"></svg>".data =
      .ok (750, 1000) := by
  refine ⟨by decide, by decide, by decide, by decide⟩

/-- C1: every `convert_file` call records exactly one outcome, moving the
sum `success_count + fail_count` up by exactly one; hence after any number
of completed calls the sum equals that number, and at the end of
`convert_batch` on a fresh converter it equals the number of enumerated
jobs (zero jobs are enumerated when the batch bails out early, and the sum
is then zero as well). -/
theorem batch_counts_invariant :
    (∀ (st : ConverterState) (env : JobEnv) (name : String),
      (convert_file st env name).state.success_count +
        (convert_file st env name).state.fail_count =
      st.success_count + st.fail_count + 1) ∧
    (∀ (st : ConverterState) (jobs : List (String × JobEnv)),
      (runJobs st jobs).success_count + (runJobs st jobs).fail_count =
        st.success_count + st.fail_count + jobs.length) ∧
    (∀ (fs : FS) (inDir : FPath) (outOpt : Option FPath)
        (envOf : FPath → JobEnv) (s : ℚ) (r : Bool),
      isDirB fs inDir = true →
      (convert_batch (initState s r) fs inDir outOpt envOf).1.success_count +
        (convert_batch (initState s r) fs inDir outOpt envOf).1.fail_count =
      (get_svg_files fs inDir r).length) := by
  refine ⟨convert_file_state, fun st jobs => runJobs_counts jobs st, ?_⟩
  intro fs inDir outOpt envOf s r h
  have hex : existsB fs inDir = true := by simp [existsB, h]
  unfold convert_batch
  rw [if_neg (fun hh => hh hex), if_neg (fun hh => hh h)]
  have := batch_foldl_counts envOf inDir (outRootOf inDir outOpt)
    (get_svg_files fs inDir (initState s r).recursive) (initState s r) [] []
  simpa [initState] using this

/-- C1 witness: a directory with one SVG file yields counter sum 1. -/
theorem batch_counts_invariant_witness :
    isDirB ⟨[["d", "a.svg"]], [["d"]]⟩ ["d"] = true ∧
    (convert_batch (initState 1 true) ⟨[["d", "a.svg"]], [["d"]]⟩ ["d"] none
        (fun _ => okEnv "<svg viewBox=\"0 0 200 300\"></svg>".data)).1.success_count +
      (convert_batch (initState 1 true) ⟨[["d", "a.svg"]], [["d"]]⟩ ["d"] none
        (fun _ => okEnv "<svg viewBox=\"0 0 200 300\"></svg>".data)).1.fail_count =
      (get_svg_files ⟨[["d", "a.svg"]], [["d"]]⟩ ["d"] true).length :=
  ⟨by decide,
    batch_counts_invariant.2.2 ⟨[["d", "a.svg"]], [["d"]]⟩ ["d"] none
      (fun _ => okEnv "<svg viewBox=\"0 0 200 300\"></svg>".data) 1 true
      (by decide)⟩

/-- C4: an exception in any step of `convert_file`'s try-block is caught in
that call: the call returns `(False, msg)`, increments `fail_count`,
leaves `success_count` unchanged, and appends `(svg_path.name, msg)` to
the failure list; a read failure (second step) indeed surfaces as such an
error; and the batch loop still runs one `convert_file` per enumerated
job — in order — whatever each job's environment does, so no exception
leaves the loop. -/
theorem failure_recorded_and_contained :
    (∀ (st : ConverterState) (env : JobEnv) (name msg : String),
      attemptConvert st.scale env = .error msg →
      (convert_file st env name).success = false ∧
      (convert_file st env name).errMsg = msg ∧
      (convert_file st env name).state.fail_count = st.fail_count + 1 ∧
      (convert_file st env name).state.success_count = st.success_count ∧
      (convert_file st env name).state.failed_files =
        st.failed_files ++ [(name, msg)]) ∧
    (∀ (scale : ℚ) (env : JobEnv) (msg : String),
      env.mkdirR = .ok () → env.readR = .error msg →
      attemptConvert scale env = .error msg) ∧
    (∀ (st : ConverterState) (fs : FS) (inDir : FPath)
        (outOpt : Option FPath) (envOf : FPath → JobEnv),
      isDirB fs inDir = true →
      (convert_batch st fs inDir outOpt envOf).2.1 =
        (get_svg_files fs inDir st.recursive).map REvent.job) := by
  refine ⟨?_, ?_, ?_⟩
  · intro st env name msg h
    simp [convert_file, h]
  · intro scale env msg h1 h2
    unfold attemptConvert
    rw [h1, h2]
    rfl
  · intro st fs inDir outOpt envOf h
    have hex : existsB fs inDir = true := by simp [existsB, h]
    unfold convert_batch
    rw [if_neg (fun hh => hh hex), if_neg (fun hh => hh h)]
    simpa using batch_foldl_events envOf inDir (outRootOf inDir outOpt)
      (get_svg_files fs inDir st.recursive) st [] []

/-- C4 witness: a failing read is recorded against the file's name. -/
theorem failure_recorded_and_contained_witness :
    (convert_file (initState 1 true)
        ⟨.ok (), .error "boom", .ok (), .ok (), .ok (), .ok ()⟩
        "a.svg").success = false ∧
    (convert_file (initState 1 true)
        ⟨.ok (), .error "boom", .ok (), .ok (), .ok (), .ok ()⟩
        "a.svg").errMsg = "boom" ∧
    (convert_file (initState 1 true)
        ⟨.ok (), .error "boom", .ok (), .ok (), .ok (), .ok ()⟩
        "a.svg").state.fail_count = (initState 1 true).fail_count + 1 ∧
    (convert_file (initState 1 true)
        ⟨.ok (), .error "boom", .ok (), .ok (), .ok (), .ok ()⟩
        "a.svg").state.success_count = (initState 1 true).success_count ∧
    (convert_file (initState 1 true)
        ⟨.ok (), .error "boom", .ok (), .ok (), .ok (), .ok ()⟩
        "a.svg").state.failed_files =
      (initState 1 true).failed_files ++ [("a.svg", "boom")] :=
  failure_recorded_and_contained.1 (initState 1 true)
    ⟨.ok (), .error "boom", .ok (), .ok (), .ok (), .ok ()⟩
    "a.svg" "boom" (by decide)

/-- C5 counterexample: single-file mode on an existing non-SVG path.  The
claim says the process exits non-zero; the code prints the error inside
`convert_single`, whose `False` return value `main` ignores, and the
process exits 0. -/
theorem single_nonsvg_exit_counterexample :
    isFileB ⟨[["slide.txt"]], []⟩ ["slide.txt"] = true ∧
    lowerStr (pySuffix (lastName ["slide.txt"]).data) ≠ ".svg".data ∧
    (mainRun ⟨[["slide.txt"]], []⟩ ⟨["slide.txt"], none, 1, false⟩
        (fun _ => okEnv "".data)).exitCode = 0 := by
  refine ⟨by decide, by decide, by decide⟩

/-- C5 (amended): in single-file mode on an existing input whose lowered
suffix is not `.svg`, the error is reported and `convert_single` returns
`False` without converting anything, but `main` ignores that return value,
so the process still exits with code 0. -/
theorem single_nonsvg_reported_exit_zero :
    ∀ (fs : FS) (a : Args) (envOf : FPath → JobEnv),
      isFileB fs a.input = true →
      lowerStr (pySuffix (lastName a.input).data) ≠ ".svg".data →
      (convert_single (initState a.scale (!a.no_recursive)) fs envOf
          a.input a.output).1 = false ∧
      (mainRun fs a envOf).exitCode = 0 ∧
      (mainRun fs a envOf).finalState = initState a.scale (!a.no_recursive) ∧
      (mainRun fs a envOf).outputsWritten = [] := by
  intro fs a envOf h1 h2
  have hex : existsB fs a.input = true := by simp [existsB, h1]
  have hcs : convert_single (initState a.scale (!a.no_recursive)) fs envOf
      a.input a.output = (false, initState a.scale (!a.no_recursive), [], []) := by
    unfold convert_single
    rw [if_neg (fun hh => hh hex), if_pos h2]
  refine ⟨by rw [hcs], ?_, ?_, ?_⟩ <;> simp [mainRun, h1, hcs]

/-- C5 witness: the amended behavior on a concrete `.txt` input. -/
theorem single_nonsvg_reported_exit_zero_witness :
    (convert_single (initState 1 (!false)) ⟨[["slide.txt"]], []⟩
        (fun _ => okEnv "".data) ["slide.txt"] none).1 = false ∧
    (mainRun ⟨[["slide.txt"]], []⟩ ⟨["slide.txt"], none, 1, false⟩
        (fun _ => okEnv "".data)).exitCode = 0 ∧
    (mainRun ⟨[["slide.txt"]], []⟩ ⟨["slide.txt"], none, 1, false⟩
        (fun _ => okEnv "".data)).finalState = initState 1 (!false) ∧
    (mainRun ⟨[["slide.txt"]], []⟩ ⟨["slide.txt"], none, 1, false⟩
        (fun _ => okEnv "".data)).outputsWritten = [] :=
  single_nonsvg_reported_exit_zero ⟨[["slide.txt"]], []⟩
    ⟨["slide.txt"], none, 1, false⟩ (fun _ => okEnv "".data)
    (by decide) (by decide)

/-- C6: a missing input path makes the run exit with code 1 having written
nothing, and an existing input path (file or directory) makes it exit with
code 0 no matter how the individual jobs fare (the environment `envOf` is
universally quantified, so every combination of job failures is covered). -/
theorem cli_exit_codes :
    ∀ (fs : FS) (a : Args) (envOf : FPath → JobEnv),
      (existsB fs a.input = false →
        (mainRun fs a envOf).exitCode = 1 ∧
        (mainRun fs a envOf).outputsWritten = []) ∧
      (existsB fs a.input = true → (mainRun fs a envOf).exitCode = 0) := by
  intro fs a envOf
  constructor
  · intro h
    rw [existsB, Bool.or_eq_false_iff] at h
    obtain ⟨h1, h2⟩ := h
    constructor <;> simp [mainRun, h1, h2]
  · intro h
    rw [existsB, Bool.or_eq_true] at h
    by_cases h1 : isFileB fs a.input = true
    · simp [mainRun, h1]
    · have h2 : isDirB fs a.input = true := by
        rcases h with h | h
        · exact absurd h h1
        · exact h
      simp [mainRun, h1, h2]

/-- C6 witness: both branches at concrete inputs — a missing path exits 1
with no outputs, an existing directory exits 0. -/
theorem cli_exit_codes_witness :
    ((mainRun ⟨[], []⟩ ⟨["nope"], none, 1, false⟩
        (fun _ => okEnv "".data)).exitCode = 1 ∧
      (mainRun ⟨[], []⟩ ⟨["nope"], none, 1, false⟩
        (fun _ => okEnv "".data)).outputsWritten = []) ∧
    (mainRun ⟨[], [["d"]]⟩ ⟨["d"], none, 1, false⟩
        (fun _ => okEnv "".data)).exitCode = 0 :=
  ⟨(cli_exit_codes ⟨[], []⟩ ⟨["nope"], none, 1, false⟩
      (fun _ => okEnv "".data)).1 (by decide),
    (cli_exit_codes ⟨[], [["d"]]⟩ ⟨["d"], none, 1, false⟩
      (fun _ => okEnv "".data)).2 (by decide)⟩

/-- C7: every enumerated source decomposes as the input directory plus a
nonempty relative path, its destination is the output root joined with
that relative path with the final name's suffix swapped to `.png` (the
1:1 mirror), the default output root is the sibling directory
`png_output` of the input directory, and for any `.svg` name with a
nonempty stem the swap really replaces the trailing `.svg` by `.png`. -/
theorem batch_destination_mirror :
    (∀ (fs : FS) (inDir : FPath) (outOpt : Option FPath) (r : Bool) (p : FPath),
      p ∈ get_svg_files fs inDir r →
      ∃ rel, rel ≠ [] ∧ p = inDir ++ rel ∧
        jobDest inDir (outRootOf inDir outOpt) p =
          outRootOf inDir outOpt ++ rel.dropLast ++ [nameWithPng (lastName rel)]) ∧
    (∀ inDir : FPath, outRootOf inDir none = inDir.dropLast ++ ["png_output"]) ∧
    (∀ n : String, endsList ".svg".data n.data = true → 4 < n.data.length →
      (nameWithPng n).data = n.data.take (n.data.length - 4) ++ ".png".data) := by
  refine ⟨?_, fun inDir => rfl, ?_⟩
  · intro fs inDir outOpt r p hp
    rw [mem_get_svg_files] at hp
    obtain ⟨-, hcond, -⟩ := hp
    have hpre : listPre inDir p = true ∧ inDir.length < p.length := by
      cases r with
      | true =>
          simp only [if_true] at hcond
          rw [underDir, Bool.and_eq_true, decide_eq_true_eq] at hcond
          exact hcond
      | false =>
          simp only [Bool.false_eq_true, if_false] at hcond
          rw [directChild, Bool.and_eq_true, decide_eq_true_eq] at hcond
          exact ⟨hcond.1, by omega⟩
    refine ⟨p.drop inDir.length, ?_, listPre_drop _ _ hpre.1, ?_⟩
    · intro hnil
      have := congrArg List.length hnil
      simp at this
      omega
    · unfold jobDest pathWithPng
      simp [List.append_assoc]
  · intro n h1 h2
    show pyWithSuffix n.data ".png".data = _
    exact svg_suffix_swap n.data h1 h2

/-- C7 witness: a nested source file mirrors into the default sibling
output root with its suffix swapped. -/
theorem batch_destination_mirror_witness :
    (∃ rel, rel ≠ [] ∧ (["d", "s", "a.svg"] : FPath) = ["d"] ++ rel ∧
      jobDest ["d"] (outRootOf ["d"] none) ["d", "s", "a.svg"] =
        outRootOf ["d"] none ++ rel.dropLast ++ [nameWithPng (lastName rel)]) ∧
    outRootOf ["d"] none = (["d"] : FPath).dropLast ++ ["png_output"] ∧
    (nameWithPng "a.svg").data =
      "a.svg".data.take ("a.svg".data.length - 4) ++ ".png".data :=
  ⟨batch_destination_mirror.1 ⟨[["d", "s", "a.svg"]], [["d"], ["d", "s"]]⟩
      ["d"] none true ["d", "s", "a.svg"] (by decide),
    batch_destination_mirror.2.1 ["d"],
    batch_destination_mirror.2.2 "a.svg" (by decide) (by decide)⟩

/-- C8 counterexample: the claim's "exactly the files with the .svg
extension" fails on the code, because a pathlib glob matches directory
entries of every kind: a directory named `icons.svg` is enumerated even
though it is not a file (conversion would then fail at `open()`). -/
theorem enumeration_dir_counterexample :
    (["d", "icons.svg"] : FPath) ∈
      get_svg_files ⟨[["d", "a.svg"]], [["d"], ["d", "icons.svg"]]⟩ ["d"] true ∧
    (["d", "icons.svg"] : FPath) ∉
      FS.files ⟨[["d", "a.svg"]], [["d"], ["d", "icons.svg"]]⟩ ∧
    (["d", "icons.svg"] : FPath) ∈
      FS.dirs ⟨[["d", "a.svg"]], [["d"], ["d", "icons.svg"]]⟩ := by
  refine ⟨by decide, by decide, by decide⟩

/-- C8 (amended): the enumeration is sorted in the order `sorted()`
applies to `pathlib` paths (code-point comparison of the full path
strings), and it contains exactly the entries — regular files or
directories — lying strictly below the directory, at any depth when
recursive and at depth one otherwise, whose name ends in `.svg`; on a
tree with no directory named `*.svg` these are exactly the files.  As a
pure function of the file system it is deterministic: unchanged directory
contents give the identical sequence. -/
theorem enumeration_sorted_exact :
    ∀ (fs : FS) (dir : FPath) (r : Bool),
      List.Sorted pathLe (get_svg_files fs dir r) ∧
      ∀ p, p ∈ get_svg_files fs dir r ↔
        (p ∈ fs.files ∨ p ∈ fs.dirs) ∧
        (∃ rel, rel ≠ [] ∧ p = dir ++ rel ∧ (r = false → rel.length = 1)) ∧
        svgNameB p = true := by
  intro fs dir r
  constructor
  · have instTot : IsTotal FPath pathLe := ⟨pathLeB_total⟩
    have instTrans : IsTrans FPath pathLe := ⟨pathLeB_trans⟩
    exact @List.sorted_insertionSort _ pathLe _ instTot instTrans _
  · intro p
    rw [mem_get_svg_files]
    cases r with
    | true =>
        simp only [if_true]
        rw [underDir_iff]
        constructor
        · rintro ⟨hm, ⟨rel, hne, rfl⟩, hsvg⟩
          exact ⟨hm, ⟨rel, hne, rfl, fun hh => by simp at hh⟩, hsvg⟩
        · rintro ⟨hm, ⟨rel, hne, rfl, -⟩, hsvg⟩
          exact ⟨hm, ⟨rel, hne, rfl⟩, hsvg⟩
    | false =>
        simp only [Bool.false_eq_true, if_false]
        rw [directChild_iff]
        constructor
        · rintro ⟨hm, ⟨rel, hlen, rfl⟩, hsvg⟩
          refine ⟨hm, ⟨rel, ?_, rfl, fun _ => hlen⟩, hsvg⟩
          intro hh
          subst hh
          simp at hlen
        · rintro ⟨hm, ⟨rel, hne, rfl, hlen⟩, hsvg⟩
          exact ⟨hm, ⟨rel, hlen (by simp), rfl⟩, hsvg⟩

/-- C8 witness: on a concrete tree the enumeration is sorted and a nested
file's membership is characterized. -/
theorem enumeration_sorted_exact_witness :
    List.Sorted pathLe
      (get_svg_files ⟨[["d", "b.svg"], ["d", "a.svg"], ["d", "s", "c.svg"]],
        [["d"], ["d", "s"]]⟩ ["d"] true) ∧
    ((["d", "s", "c.svg"] : FPath) ∈
        get_svg_files ⟨[["d", "b.svg"], ["d", "a.svg"], ["d", "s", "c.svg"]],
          [["d"], ["d", "s"]]⟩ ["d"] true ↔
      ((["d", "s", "c.svg"] : FPath) ∈
          ([["d", "b.svg"], ["d", "a.svg"], ["d", "s", "c.svg"]] : List FPath) ∨
        (["d", "s", "c.svg"] : FPath) ∈ ([["d"], ["d", "s"]] : List FPath)) ∧
        (∃ rel, rel ≠ [] ∧ (["d", "s", "c.svg"] : FPath) = ["d"] ++ rel ∧
          (true = false → rel.length = 1)) ∧
        svgNameB ["d", "s", "c.svg"] = true) :=
  ⟨(enumeration_sorted_exact
      ⟨[["d", "b.svg"], ["d", "a.svg"], ["d", "s", "c.svg"]],
        [["d"], ["d", "s"]]⟩ ["d"] true).1,
    (enumeration_sorted_exact
      ⟨[["d", "b.svg"], ["d", "a.svg"], ["d", "s", "c.svg"]],
        [["d"], ["d", "s"]]⟩ ["d"] true).2 ["d", "s", "c.svg"]⟩

theorem convert_single_events (st : ConverterState) (fs : FS)
    (envOf : FPath → JobEnv) (svg : FPath) (pngOpt : Option FPath) :
    (convert_single st fs envOf svg pngOpt).2.2.1 = [] ∨
    (convert_single st fs envOf svg pngOpt).2.2.1 = [REvent.job svg] := by
  unfold convert_single
  split
  · left; rfl
  · split
    · left; rfl
    · right; rfl

theorem convert_batch_events_cases (st : ConverterState) (fs : FS)
    (inDir : FPath) (outOpt : Option FPath) (envOf : FPath → JobEnv) :
    (convert_batch st fs inDir outOpt envOf).2.1 = [] ∨
    (convert_batch st fs inDir outOpt envOf).2.1 =
      (get_svg_files fs inDir st.recursive).map REvent.job := by
  unfold convert_batch
  split
  · left; rfl
  · split
    · left; rfl
    · right
      simpa using batch_foldl_events envOf inDir (outRootOf inDir outOpt)
        (get_svg_files fs inDir st.recursive) st [] []

/-- C9: in every run the engine is started exactly once and stopped
exactly once, the start precedes every conversion and the stop follows the
last one, and this holds on all exit paths — normal completion, per-job
failures (the environment is universal), and the early `sys.exit(1)` on a
missing input, which still unwinds through `__exit__`. -/
theorem engine_lifecycle_once :
    ∀ (fs : FS) (a : Args) (envOf : FPath → JobEnv),
      (∃ mid, (mainRun fs a envOf).events =
          REvent.start :: mid ++ [REvent.stop] ∧
        ∀ e ∈ mid, ∃ p, e = REvent.job p) ∧
      (mainRun fs a envOf).events.count REvent.start = 1 ∧
      (mainRun fs a envOf).events.count REvent.stop = 1 := by
  intro fs a envOf
  have hshape : ∃ mid, (mainRun fs a envOf).events =
      REvent.start :: mid ++ [REvent.stop] ∧
      ∀ e ∈ mid, ∃ p, e = REvent.job p := by
    unfold mainRun
    by_cases h1 : isFileB fs a.input = true
    · rcases convert_single_events (initState a.scale (!a.no_recursive)) fs
        envOf a.input a.output with h | h
      · exact ⟨[], by simp [h1, h], by simp⟩
      · refine ⟨[REvent.job a.input], by simp [h1, h], ?_⟩
        intro e he
        simp at he
        exact ⟨a.input, he⟩
    · by_cases h2 : isDirB fs a.input = true
      · rcases convert_batch_events_cases (initState a.scale (!a.no_recursive))
          fs a.input a.output envOf with h | h
        · exact ⟨[], by simp [h1, h2, h], by simp⟩
        · refine ⟨(get_svg_files fs a.input
              (initState a.scale (!a.no_recursive)).recursive).map REvent.job,
            by simp [h1, h2, h], ?_⟩
          intro e he
          rw [List.mem_map] at he
          obtain ⟨p, -, rfl⟩ := he
          exact ⟨p, rfl⟩
      · exact ⟨[], by simp [h1, h2], by simp⟩
  obtain ⟨mid, hsh, hjob⟩ := hshape
  refine ⟨⟨mid, hsh, hjob⟩, ?_, ?_⟩ <;> rw [hsh]
  · have hz : mid.count REvent.start = 0 := by
      rw [List.count_eq_zero]
      intro hin
      obtain ⟨p, hp⟩ := hjob _ hin
      cases hp
    simp [List.count_cons, List.count_append, hz]
  · have hz : mid.count REvent.stop = 0 := by
      rw [List.count_eq_zero]
      intro hin
      obtain ⟨p, hp⟩ := hjob _ hin
      cases hp
    simp [List.count_cons, List.count_append, hz]

/-- C9 witness: the event trace of a concrete batch run. -/
theorem engine_lifecycle_once_witness :
    (∃ mid, (mainRun ⟨[["d", "a.svg"]], [["d"]]⟩ ⟨["d"], none, 1, false⟩
        (fun _ => okEnv "<svg viewBox=\"0 0 200 300\"></svg>".data)).events =
          REvent.start :: mid ++ [REvent.stop] ∧
      ∀ e ∈ mid, ∃ p, e = REvent.job p) ∧
    (mainRun ⟨[["d", "a.svg"]], [["d"]]⟩ ⟨["d"], none, 1, false⟩
        (fun _ => okEnv "<svg viewBox=\"0 0 200 300\"></svg>".data)).events.count
      REvent.start = 1 ∧
    (mainRun ⟨[["d", "a.svg"]], [["d"]]⟩ ⟨["d"], none, 1, false⟩
        (fun _ => okEnv "<svg viewBox=\"0 0 200 300\"></svg>".data)).events.count
      REvent.stop = 1 :=
  engine_lifecycle_once ⟨[["d", "a.svg"]], [["d"]]⟩ ⟨["d"], none, 1, false⟩
    (fun _ => okEnv "<svg viewBox=\"0 0 200 300\"></svg>".data)

/-- C2 witness: the amended inference at a concrete well-formed viewBox. -/
theorem viewbox_dimension_inference_witness :
    inferDimensions "<svg viewBox=\"0 0 200 300\"></svg>".data =
      .ok (200, 300) :=
  viewbox_dimension_inference.2.2.1
    "<svg viewBox=\"0 0 200 300\"></svg>".data "0 0 200 300".data
    "0".data "0".data "200".data "300".data 200 300
    (by decide) (by decide) (by decide) (by decide)

end SvgPng
